import Mathlib

/-!
Verification of the medow resumable downloader (package `downloader`,
file `downloader.go`), as a shallow embedding in Lean 4.

Modelling conventions:
* Go `int64` counters are modelled as `Int` (the transfers involved are far
  from the 2^63 overflow boundary; overflow is irrelevant to the properties
  proved here).  The 64-bit range check of `strconv.ParseInt` is modelled
  explicitly.
* Files are modelled by their contents; `os.ReadFile` errors are modelled by
  an `Option String` content (`none` = absent/unreadable).
* The response body (`io.Reader`) is modelled as a list of read events, each
  returning a chunk of bytes together with an optional error, matching Go's
  `Read` contract that `n > 0` may accompany a non-nil error.
* Write errors of the output file are modelled by an oracle indexed by the
  number of writes performed so far.
-/

namespace Medow

/-! ### strconv.ParseInt(s, 10, 64), as used by ReadProgress and the
Content-Length parse.  Accepts an optional sign followed by a non-empty
run of decimal digits, and enforces the int64 range. -/

def digitVal (c : Char) : Option Nat :=
  if '0' ≤ c ∧ c ≤ '9' then some (c.toNat - '0'.toNat) else none

def parseDigitsAux : List Char → Nat → Option Nat
  | [], acc => some acc
  | c :: rest, acc =>
    match digitVal c with
    | some d => parseDigitsAux rest (acc * 10 + d)
    | none => none

def parseDigits : List Char → Option Nat
  | [] => none
  | cs => parseDigitsAux cs 0

def parseInt64 (s : String) : Option Int :=
  let signSplit : Bool × List Char :=
    match s.data with
    | [] => (false, [])
    | c :: rest =>
      if c = '-' then (true, rest)
      else if c = '+' then (false, rest)
      else (false, s.data)
  match parseDigits signSplit.2 with
  | none => none
  | some n =>
    if signSplit.1 then
      if n ≤ 2 ^ 63 then some (-(n : Int)) else none
    else
      if n ≤ 2 ^ 63 - 1 then some (n : Int) else none

/-! ### ReadProgress (downloader.go:46-60) and CreateRequest (63-81).

`RState` carries the two fields of `Downloader` that these functions
mutate (`Downloaded`, `ResumedAt`). -/

structure RState where
  downloaded : Int
  resumedAt : Int
deriving DecidableEq, Repr

/-- Model of `(*Downloader).ReadProgress`: `content` is the progress file's
content (`none` models an `os.ReadFile` error, e.g. file absent). -/
def ReadProgress (content : Option String) (st : RState) : RState :=
  match content with
  | none => { st with downloaded := 0 }
  | some data =>
    match parseInt64 data with
    | none => { st with downloaded := 0 }
    | some parsedNum =>
      if parsedNum < 0 then { st with downloaded := 0 }
      else { st with downloaded := parsedNum, resumedAt := parsedNum }

/-- The baseline value ReadProgress leaves in `Downloaded`: the parsed
value when parsing succeeds with a non-negative result, else 0. -/
def readProgressValue (content : Option String) : Int :=
  match content.bind parseInt64 with
  | some n => if n < 0 then 0 else n
  | none => 0

/-- Model of `(*Downloader).CreateRequest` (downloader.go:63-81): returns the
value of the `Range` header (`none` = plain full-content GET) and the updated
state.  `http.NewRequest` failure is handled by the caller model
(`Download`), before any state is touched, exactly as in the source. -/
def CreateRequest (useProgressFile : Bool) (content : Option String)
    (st : RState) : Option String × RState :=
  if useProgressFile then
    let st' := ReadProgress content st
    if st'.downloaded > 0 then
      (some ("bytes=" ++ toString st'.downloaded ++ "-"), st')
    else (none, st')
  else (none, st)

/-! ### The streaming loop: DownloadChunks (downloader.go:84-104). -/

/-- A read error: Go's `io.EOF` or any other error (tagged by a code). -/
inductive RErr
  | eof
  | other (code : Nat)
deriving DecidableEq, Repr

/-- One `body.Read(buf)` result: the bytes read and the error returned
alongside them (Go allows `n > 0` together with a non-nil error). -/
structure ReadEv where
  data : List Nat
  rerr : Option RErr
deriving DecidableEq, Repr

inductive DlError
  | badUrl
  | transport
  | badStatus (code : Nat)
  | resumeRejected
  | clenParse
  | outOpen
  | seekE
  | progOpen
  | writeE (code : Nat)
  | readE (code : Nat)
deriving DecidableEq, Repr

/-- Output-file view of the chunk loop: bytes appended during this run and
the shared `Downloaded` counter. -/
structure ChunkState where
  out : List Nat
  downloaded : Int
deriving DecidableEq, Repr

/-- Model of `(*Downloader).DownloadChunks`.  `wf k` is the error (if any)
returned by the k-th `OutputFile.Write` call.  An exhausted event list
behaves like a reader that reports end of stream (`io.EOF`). -/
def DownloadChunks (wf : Nat → Option Nat) :
    List ReadEv → Nat → ChunkState → Except DlError Unit × ChunkState
  | [], _, st => (Except.ok (), st)
  | ev :: rest, k, st =>
    if 0 < ev.data.length then
      match wf k with
      | some c => (Except.error (DlError.writeE c), st)
      | none =>
        let st' : ChunkState :=
          { out := st.out ++ ev.data
            downloaded := st.downloaded + (ev.data.length : Int) }
        match ev.rerr with
        | some RErr.eof => (Except.ok (), st')
        | some (RErr.other c) => (Except.error (DlError.readE c), st')
        | none => DownloadChunks wf rest (k + 1) st'
    else
      match ev.rerr with
      | some RErr.eof => (Except.ok (), st)
      | some (RErr.other c) => (Except.error (DlError.readE c), st)
      | none => DownloadChunks wf rest k st

/-- The bytes a reader delivers before the loop stops: all data up to and
including the first event carrying an error. -/
def deliveredData : List ReadEv → List Nat
  | [] => []
  | ev :: rest => ev.data ++ (if ev.rerr.isSome then [] else deliveredData rest)

/-- The first read error a reader reports, if any. -/
def firstReadErr : List ReadEv → Option RErr
  | [] => none
  | ev :: rest =>
    match ev.rerr with
    | some e => some e
    | none => firstReadErr rest

/-! ### DownloadChunksWithLimit (downloader.go:106-137), in a timed model.

The virtual clock `clockNs` counts nanoseconds since `startTime`; reads and
writes are instantaneous (the adversarial fast source of the rate-limit
property) and `time.Sleep` advances the clock.  The source computes
`time.Duration(float64(totalBytes)/float64(maxSpeedBytes)) * time.Second`:
the float quotient is truncated toward zero by the conversion to
`time.Duration` *before* the multiplication by `time.Second`, so the
expected duration is `(totalBytes / maxSpeedBytes)` whole seconds.  `Nat`
division models this truncation (at the inputs used in the theorems below
the float quotient lies strictly between consecutive integers, so float
rounding cannot move it across the truncation boundary). -/

structure LimState where
  out : List Nat
  downloaded : Int
  totalBytes : Nat
  clockNs : Nat
deriving DecidableEq, Repr

def expectedDurationNs (totalBytes maxSpeedBytes : Nat) : Nat :=
  totalBytes / maxSpeedBytes * 1000000000

/-- Model of `(*Downloader).DownloadChunksWithLimit`.  After each chunk the
loop sleeps `expectedDuration - elapsed` when positive, i.e. the clock
becomes `max clockNs expectedDuration`. -/
def DownloadChunksWithLimit (wf : Nat → Option Nat) (maxSpeedBytes : Nat) :
    List ReadEv → Nat → LimState → Except DlError Unit × LimState
  | [], _, st => (Except.ok (), st)
  | ev :: rest, k, st =>
    if 0 < ev.data.length then
      match wf k with
      | some c => (Except.error (DlError.writeE c), st)
      | none =>
        let st1 : LimState :=
          { out := st.out ++ ev.data
            downloaded := st.downloaded + (ev.data.length : Int)
            totalBytes := st.totalBytes + ev.data.length
            clockNs := st.clockNs }
        let st2 : LimState :=
          { st1 with
              clockNs :=
                max st1.clockNs (expectedDurationNs st1.totalBytes maxSpeedBytes) }
        match ev.rerr with
        | some RErr.eof => (Except.ok (), st2)
        | some (RErr.other c) => (Except.error (DlError.readE c), st2)
        | none => DownloadChunksWithLimit wf maxSpeedBytes rest (k + 1) st2
    else
      match ev.rerr with
      | some RErr.eof => (Except.ok (), st)
      | some (RErr.other c) => (Except.error (DlError.readE c), st)
      | none => DownloadChunksWithLimit wf maxSpeedBytes rest k st

/-! ### The progress sidecar file and one reporter tick
(ManageProgressPrinter, downloader.go:218-264).

`PFile` models an open `os.File`: its volatile content, the seek offset,
and the content last forced to stable storage by `Sync`. -/

structure PFile where
  content : List Char
  offset : Nat
  durable : List Char
deriving DecidableEq, Repr

/-- `f.Seek(0, 0)`. -/
def fileSeek0 (f : PFile) : PFile := { f with offset := 0 }

/-- `f.Truncate(0)`: clears the content, leaves the offset where it was. -/
def fileTruncate0 (f : PFile) : PFile := { f with content := [] }

/-- `f.WriteString(s)`: writes at the current offset, zero-padding any gap
beyond the end of file and preserving content past the written region. -/
def fileWriteString (f : PFile) (s : List Char) : PFile :=
  let padded := f.content ++ List.replicate (f.offset - f.content.length) (Char.ofNat 0)
  { f with
      content := padded.take f.offset ++ s ++ padded.drop (f.offset + s.length)
      offset := f.offset + s.length }

/-- `f.Sync()`: forces the content to stable storage. -/
def fileSync (f : PFile) : PFile := { f with durable := f.content }

/-- The sidecar rewrite performed by a tick (downloader.go:251-254):
Seek(0,0); Truncate(0); WriteString(fmt.Sprintf("%d", current)); Sync(). -/
def tickPersist (f : PFile) (current : Int) : PFile :=
  fileSync (fileWriteString (fileTruncate0 (fileSeek0 f)) (toString current).data)

/-- The fields of `Downloader` read by a reporter tick. -/
structure TickSt where
  downloaded : Int
  resumedAt : Int
  totalSize : Int
  passedMilliSc : Int
deriving DecidableEq, Repr

/-- What one tick hands to `PrintFormattedInfo` (float64 arithmetic modelled
over `Rat`; the final int64 conversion truncates toward zero). -/
structure PrintInfo where
  current : Int
  totalSize : Int
  bps : Rat
  eta : Int
deriving DecidableEq, Repr

/-- Truncation toward zero of a rational, as Go's int64(float64) conversion. -/
def truncQ (q : Rat) : Int := q.num.tdiv (q.den : Int)

/-- One iteration of the ticker case in `ManageProgressPrinter`
(downloader.go:226-256): sample `Downloaded`, advance `PassedMilliSc`,
report percentage/speed/ETA only when `TotalSize > 0`, and rewrite the
sidecar (when the progress file is open) unconditionally. -/
def ManageProgressPrinterTick (st : TickSt) (pf : Option PFile) :
    TickSt × Option PFile × Option PrintInfo :=
  let current := st.downloaded
  let passedMs := st.passedMilliSc + 1000
  let passedSecs : Rat := (passedMs : Rat) / 1000
  let report : Option PrintInfo :=
    if st.totalSize > 0 then
      let bps : Rat :=
        if passedSecs > 0 then ((current - st.resumedAt : Int) : Rat) / passedSecs
        else 0
      let eta : Int :=
        if bps > 0 then truncQ (((st.totalSize - current : Int) : Rat) / bps)
        else 0
      some { current := current, totalSize := st.totalSize, bps := bps, eta := eta }
    else none
  let pf' : Option PFile :=
    match pf with
    | some f => some (tickPersist f current)
    | none => none
  ({ st with passedMilliSc := passedMs }, pf', report)

/-! ### Download (downloader.go:140-214), as an effect trace.

`Eff` is the vocabulary of externally visible actions of the orchestrator.
`signalStop` is the action of signalling `stopChan` (closing it or sending
on it); the source creates `stopChan` at line 198 and passes it to
`ManageProgressPrinter` but contains no send or close on it, so the model
of `Download` never emits this event.  The `defer`red closes run in LIFO
order at every return. -/

inductive Eff
  | openOutput
  | seekOutput (n : Int)
  | openProgress
  | startReporter
  | signalStop
  | removeSidecar
  | closeProgress
  | closeOutput
  | closeBody
deriving DecidableEq, Repr

structure HttpResp where
  status : Nat
  contentLength : Option String
  body : List ReadEv

/-- All inputs that determine one run of `Download`: the environment's
responses to its requests and file operations. -/
structure DlInput where
  useProgressFile : Bool
  progressContent : Option String
  urlOk : Bool
  transportErr : Bool
  resp : HttpResp
  outputOpenErr : Bool
  seekErr : Bool
  progressOpenErr : Bool
  writeErrs : Nat → Option Nat

/-- Content-Length handling (downloader.go:169-176): absent header leaves
`TotalSize = 0`; a present header is parsed with `strconv.ParseInt` and a
parse failure aborts `Download`. -/
def contentLenTotal (downloaded : Int) (cl : Option String) : Except DlError Int :=
  match cl with
  | none => Except.ok 0
  | some s =>
    match parseInt64 s with
    | none => Except.error DlError.clenParse
    | some n => Except.ok (downloaded + n)

/-- Model of `(*Downloader).Download`: the returned error and the ordered
trace of effects, including the deferred closes on every exit path. -/
def Download (inp : DlInput) : Except DlError Unit × List Eff :=
  if inp.urlOk = false then (Except.error DlError.badUrl, [])
  else
    let cr := CreateRequest inp.useProgressFile inp.progressContent
      { downloaded := 0, resumedAt := 0 }
    let st := cr.2
    if inp.transportErr then (Except.error DlError.transport, [])
    else if inp.resp.status ≠ 200 ∧ inp.resp.status ≠ 206 then
      (Except.error (DlError.badStatus inp.resp.status), [Eff.closeBody])
    else if st.downloaded > 0 ∧ inp.resp.status ≠ 206 then
      (Except.error DlError.resumeRejected, [Eff.closeBody])
    else
      match contentLenTotal st.downloaded inp.resp.contentLength with
      | Except.error e => (Except.error e, [Eff.closeBody])
      | Except.ok _total =>
        if inp.outputOpenErr then (Except.error DlError.outOpen, [Eff.closeBody])
        else if inp.seekErr then
          (Except.error DlError.seekE, [Eff.openOutput, Eff.closeOutput, Eff.closeBody])
        else if inp.progressOpenErr then
          (Except.error DlError.progOpen,
           [Eff.openOutput, Eff.seekOutput st.downloaded, Eff.closeOutput, Eff.closeBody])
        else
          match (DownloadChunks inp.writeErrs inp.resp.body 0
              { out := [], downloaded := st.downloaded }).1 with
          | Except.ok _ =>
            (Except.ok (),
             [Eff.openOutput, Eff.seekOutput st.downloaded, Eff.openProgress,
              Eff.startReporter, Eff.removeSidecar,
              Eff.closeProgress, Eff.closeOutput, Eff.closeBody])
          | Except.error e =>
            (Except.error e,
             [Eff.openOutput, Eff.seekOutput st.downloaded, Eff.openProgress,
              Eff.startReporter,
              Eff.closeProgress, Eff.closeOutput, Eff.closeBody])

/-- The sidecar content after the orchestrator's own trace: only
`removeSidecar` mutates it from `Download` itself (reporter ticks, the
other mutator, happen only after a `startReporter` event). -/
def sidecarAfter (c : Option String) (tr : List Eff) : Option String :=
  tr.foldl (fun acc e => match e with | Eff.removeSidecar => none | _ => acc) c

/-! ### The writer/reporter interleaving (downloader.go:87-102 and 226-256).

Two actors share `Downloaded`: the streaming loop performs, for each chunk
of `n` bytes, the write syscall (`wWrite n`, downloader.go:90) and then the
atomic add (`wAdd n`, line 94) as two separate atomic steps; the reporter
performs an atomic load into its local `current` (`rSample`, line 228) and
later persists that sample to the sidecar (`rPersist`, lines 251-254).  A
trace is any interleaving of these; `writerWF` enforces only the writer's
program order (each `wAdd n` immediately caused by a preceding `wWrite n`
of the same chunk).  `os.File.Write` is unbuffered, so `outWritten` is the
byte count actually in the output file. -/

inductive CEv
  | wWrite (n : Nat)
  | wAdd (n : Nat)
  | rSample
  | rPersist
deriving DecidableEq, Repr

structure CSys where
  outWritten : Int
  downloaded : Int
  sampled : Int
  sidecar : Int
deriving DecidableEq, Repr

def cstep (s : CSys) (e : CEv) : CSys :=
  match e with
  | CEv.wWrite n => { s with outWritten := s.outWritten + (n : Int) }
  | CEv.wAdd n => { s with downloaded := s.downloaded + (n : Int) }
  | CEv.rSample => { s with sampled := s.downloaded }
  | CEv.rPersist => { s with sidecar := s.sampled }

/-- Writer program order: `pend` is the size of a chunk already written to
the output file but not yet added to `Downloaded`. -/
def writerWF : Option Nat → List CEv → Bool
  | _, [] => true
  | none, CEv.wWrite n :: tr => writerWF (some n) tr
  | none, CEv.wAdd _ :: _ => false
  | some _, CEv.wWrite _ :: _ => false
  | some m, CEv.wAdd n :: tr => n == m && writerWF none tr
  | p, CEv.rSample :: tr => writerWF p tr
  | p, CEv.rPersist :: tr => writerWF p tr

/-- Start of a transfer that resumes at offset `n`: the output file already
holds `n` bytes, `Downloaded` and the sidecar hold `n`, and the reporter's
local sample is zero-initialised. -/
def initSys (n : Int) : CSys :=
  { outWritten := n, downloaded := n, sampled := 0, sidecar := n }

/-- The inductive invariant of the interleaving. -/
def CInv (p : Option Nat) (s : CSys) : Prop :=
  s.sidecar ≤ s.outWritten ∧ s.sampled ≤ s.outWritten ∧
    (match p with
     | none => s.downloaded ≤ s.outWritten
     | some n => s.downloaded + (n : Int) ≤ s.outWritten)

/-! ### Concrete run fixtures (used by the witnesses below). -/

/-- A run in which everything succeeds: fresh download, status 200, body
that reports end of stream immediately. -/
def inpSuccess : DlInput :=
  { useProgressFile := false
    progressContent := none
    urlOk := true
    transportErr := false
    resp := { status := 200, contentLength := none
              body := [{ data := [], rerr := some RErr.eof }] }
    outputOpenErr := false
    seekErr := false
    progressOpenErr := false
    writeErrs := fun _ => none }

/-- A fresh download answered with status 404. -/
def inpBadStatus : DlInput :=
  { inpSuccess with resp := { status := 404, contentLength := none, body := [] } }

/-- A resume (sidecar holds "5") answered with status 200 instead of 206. -/
def inpResumeRej : DlInput :=
  { inpSuccess with
      useProgressFile := true
      progressContent := some "5"
      resp := { status := 200, contentLength := none, body := [] } }

/-! ### Helper lemmas -/

lemma ReadProgress_fresh (content : Option String) :
    ReadProgress content { downloaded := 0, resumedAt := 0 } =
      { downloaded := readProgressValue content
        resumedAt := readProgressValue content } := by
  cases content with
  | none => simp [ReadProgress, readProgressValue]
  | some data =>
    simp only [ReadProgress, readProgressValue, Option.some_bind]
    cases h : parseInt64 data with
    | none => simp
    | some n =>
      by_cases hn : n < 0
      · simp [hn]
      · simp [hn]

lemma readProgressValue_nonneg (content : Option String) :
    0 ≤ readProgressValue content := by
  unfold readProgressValue
  cases h : content.bind parseInt64 with
  | none => simp
  | some n =>
    by_cases hn : n < 0
    · simp [hn]
    · simp [hn]; omega

/-- C6: for every state of the progress file — absent/unreadable (`none`),
malformed, or holding a negative value — `ReadProgress` leaves
`Downloaded = 0` and `ResumedAt` untouched (it never fails, the caller
always gets a usable fresh-download baseline); only a successfully parsed
non-negative value sets both `Downloaded` and `ResumedAt` to that value. -/
theorem ReadProgress_baseline_spec :
    ∀ (content : Option String) (st : RState),
      (ReadProgress content st).downloaded = readProgressValue content ∧
      0 ≤ readProgressValue content ∧
      (∀ n : Int, content.bind parseInt64 = some n → 0 ≤ n →
        (ReadProgress content st).downloaded = n ∧
        (ReadProgress content st).resumedAt = n) ∧
      ((content.bind parseInt64 = none ∨
          ∃ n : Int, content.bind parseInt64 = some n ∧ n < 0) →
        (ReadProgress content st).downloaded = 0 ∧
        (ReadProgress content st).resumedAt = st.resumedAt) := by
  intro content st
  cases content with
  | none => simp [ReadProgress, readProgressValue]
  | some data =>
    simp only [ReadProgress, readProgressValue, Option.some_bind]
    cases h : parseInt64 data with
    | none => simp
    | some n =>
      by_cases hn : n < 0
      · simp [hn]
      · simp [hn]
        omega

/-- Witness for C6 at a concrete progress-file content. -/
theorem ReadProgress_baseline_spec_witness :
    (ReadProgress (some "7") { downloaded := 0, resumedAt := 3 }).downloaded = 7 ∧
    (ReadProgress (some "7") { downloaded := 0, resumedAt := 3 }).resumedAt = 7 :=
  (ReadProgress_baseline_spec (some "7")
    { downloaded := 0, resumedAt := 3 }).2.2.1 7 (by decide) (by decide)

/-- C7: from a fresh state, `CreateRequest` attaches the header
`Range: bytes=<offset>-` exactly when `UseProgressFile` is true and the
baseline read from the progress file is positive (otherwise the request is
a plain GET), and it leaves both `Downloaded` and `ResumedAt` equal to the
read baseline (0 when the progress file is disabled). -/
theorem CreateRequest_range_spec :
    ∀ (u : Bool) (content : Option String),
      (CreateRequest u content { downloaded := 0, resumedAt := 0 }).1 =
        (if u = true ∧ 0 < readProgressValue content then
          some ("bytes=" ++ toString (readProgressValue content) ++ "-")
         else none) ∧
      (CreateRequest u content { downloaded := 0, resumedAt := 0 }).2.downloaded =
        (if u = true then readProgressValue content else 0) ∧
      (CreateRequest u content { downloaded := 0, resumedAt := 0 }).2.resumedAt =
        (if u = true then readProgressValue content else 0) := by
  intro u content
  cases u with
  | false => simp [CreateRequest]
  | true =>
    simp only [CreateRequest, if_true, ReadProgress_fresh]
    by_cases hb : 0 < readProgressValue content
    · simp [hb]
    · simp [hb]

/-- C8: on a reporter tick with the progress file open, the sidecar's
entire content (and, after `Sync`, its durable content) becomes exactly the
decimal representation of the sampled `Downloaded` value — independent of
whatever longer content or offset the file had before, and independent of
whether `TotalSize` is known. -/
theorem ManageProgressPrinterTick_persist_spec :
    ∀ (st : TickSt) (pf : PFile),
      (ManageProgressPrinterTick st (some pf)).2.1 =
        some { content := (toString st.downloaded).data
               offset := (toString st.downloaded).data.length
               durable := (toString st.downloaded).data } := by
  intro st pf
  simp [ManageProgressPrinterTick, tickPersist, fileSync, fileWriteString,
    fileTruncate0, fileSeek0]

/-- C4: with no write errors, `DownloadChunks` writes every successfully
read chunk to the output file and adds its length to `Downloaded`
(delivering exactly `deliveredData`), returns success exactly when the
stream ends with end-of-stream (`io.EOF` or exhaustion), and returns the
first non-EOF read error otherwise; and on a write error it returns that
error immediately, leaving `Downloaded` at the bytes written so far. -/
theorem DownloadChunks_stream_spec :
    (∀ (evs : List ReadEv) (k : Nat) (st : ChunkState),
      DownloadChunks (fun _ => none) evs k st =
        ((match firstReadErr evs with
          | some (RErr.other c) => Except.error (DlError.readE c)
          | _ => Except.ok ()),
         { out := st.out ++ deliveredData evs
           downloaded := st.downloaded + ((deliveredData evs).length : Int) })) ∧
    (∀ (c k : Nat) (d : List Nat) (re : Option RErr) (rest : List ReadEv)
        (st : ChunkState),
      0 < d.length →
      DownloadChunks (fun _ => some c) ({ data := d, rerr := re } :: rest) k st =
        (Except.error (DlError.writeE c), st)) := by
  constructor
  · intro evs
    induction evs with
    | nil =>
      intro k st
      simp [DownloadChunks, deliveredData, firstReadErr]
    | cons ev rest ih =>
      intro k st
      by_cases hn : 0 < ev.data.length
      · cases h : ev.rerr with
        | none =>
          simp only [DownloadChunks, if_pos hn, h, ih (k + 1), deliveredData,
            firstReadErr, Option.isSome_none, Bool.false_eq_true, if_false]
          simp [List.append_assoc, List.length_append, Nat.cast_add, add_assoc]
        | some e =>
          cases e with
          | eof =>
            simp [DownloadChunks, if_pos hn, h, deliveredData, firstReadErr]
          | other c =>
            simp [DownloadChunks, if_pos hn, h, deliveredData, firstReadErr]
      · have hdata : ev.data = [] := by
          cases hd : ev.data with
          | nil => rfl
          | cons a l => rw [hd] at hn; simp at hn
        cases h : ev.rerr with
        | none =>
          simp only [DownloadChunks, if_neg hn, h, ih k, deliveredData,
            firstReadErr, Option.isSome_none, Bool.false_eq_true, if_false, hdata]
          simp
        | some e =>
          cases e with
          | eof =>
            simp [DownloadChunks, if_neg hn, h, deliveredData, firstReadErr, hdata]
          | other c =>
            simp [DownloadChunks, if_neg hn, h, deliveredData, firstReadErr, hdata]
  · intro c k d re rest st hd
    simp [DownloadChunks, if_pos hd]

/-- Witness for C4 at concrete inputs: a two-chunk EOF-terminated stream,
and a failing first write. -/
theorem DownloadChunks_stream_spec_witness :
    (DownloadChunks (fun _ => none)
        [{ data := [1, 2], rerr := none }, { data := [3], rerr := some RErr.eof }] 0
        { out := [], downloaded := 0 } =
      (Except.ok (), { out := [1, 2, 3], downloaded := 3 })) ∧
    (DownloadChunks (fun _ => some 9) [{ data := [1, 2], rerr := none }] 0
        { out := [], downloaded := 0 } =
      (Except.error (DlError.writeE 9), { out := [], downloaded := 0 })) :=
  ⟨by
    have h := DownloadChunks_stream_spec.1
      [{ data := [1, 2], rerr := none }, { data := [3], rerr := some RErr.eof }] 0
      { out := [], downloaded := 0 }
    simpa [deliveredData, firstReadErr] using h,
   DownloadChunks_stream_spec.2 9 0 [1, 2] none []
    { out := [], downloaded := 0 } (by decide)⟩

/-- C10: a read that returns data together with a non-EOF error in the same
call still has its data written to the output file and counted in
`Downloaded` before the error is returned, in both `DownloadChunks` and
`DownloadChunksWithLimit`. -/
theorem DownloadChunks_partial_data_kept :
    ∀ (d : List Nat) (c k maxSpeed : Nat) (rest : List ReadEv)
      (st : ChunkState) (stL : LimState),
      0 < d.length →
      (DownloadChunks (fun _ => none)
          ({ data := d, rerr := some (RErr.other c) } :: rest) k st =
        (Except.error (DlError.readE c),
         { out := st.out ++ d, downloaded := st.downloaded + (d.length : Int) })) ∧
      (DownloadChunksWithLimit (fun _ => none) maxSpeed
          ({ data := d, rerr := some (RErr.other c) } :: rest) k stL =
        (Except.error (DlError.readE c),
         { out := stL.out ++ d
           downloaded := stL.downloaded + (d.length : Int)
           totalBytes := stL.totalBytes + d.length
           clockNs := max stL.clockNs
             (expectedDurationNs (stL.totalBytes + d.length) maxSpeed) })) := by
  intro d c k maxSpeed rest st stL hd
  constructor
  · simp [DownloadChunks, if_pos hd]
  · simp [DownloadChunksWithLimit, if_pos hd]

/-- Witness for C10: one byte delivered together with a non-EOF error. -/
theorem DownloadChunks_partial_data_kept_witness :
    (DownloadChunks (fun _ => none) [{ data := [5], rerr := some (RErr.other 2) }] 0
        { out := [], downloaded := 0 } =
      (Except.error (DlError.readE 2), { out := [5], downloaded := 1 })) ∧
    (DownloadChunksWithLimit (fun _ => none) 10
        [{ data := [5], rerr := some (RErr.other 2) }] 0
        { out := [], downloaded := 0, totalBytes := 0, clockNs := 0 } =
      (Except.error (DlError.readE 2),
       { out := [5], downloaded := 1, totalBytes := 1, clockNs := 0 })) := by
  have h := DownloadChunks_partial_data_kept [5] 2 0 10 []
    { out := [], downloaded := 0 }
    { out := [], downloaded := 0, totalBytes := 0, clockNs := 0 } (by decide)
  constructor
  · exact h.1
  · simpa [expectedDurationNs] using h.2

lemma expectedDurationNs_mono (C : Nat) {a b : Nat} (h : a ≤ b) :
    expectedDurationNs a C ≤ expectedDurationNs b C :=
  Nat.mul_le_mul_right _ (Nat.div_le_div_right h)

/-- Running the rate-limited loop over `k` instantaneous same-size chunks:
the clock advances exactly to the (truncated) expected duration of the
total bytes moved. -/
lemma DownloadChunksWithLimit_replicate (C s : Nat) (hs : 0 < s) :
    ∀ (k j : Nat) (st : LimState),
      st.clockNs = expectedDurationNs st.totalBytes C →
      ((DownloadChunksWithLimit (fun _ => none) C
          (List.replicate k ({ data := List.replicate s 0, rerr := none } : ReadEv))
          j st).2.totalBytes = st.totalBytes + k * s) ∧
      ((DownloadChunksWithLimit (fun _ => none) C
          (List.replicate k ({ data := List.replicate s 0, rerr := none } : ReadEv))
          j st).2.clockNs = expectedDurationNs (st.totalBytes + k * s) C) := by
  intro k
  induction k with
  | zero =>
    intro j st hclock
    simp [DownloadChunksWithLimit, hclock]
  | succ m ih =>
    intro j st hclock
    rw [List.replicate_succ]
    have hlen : 0 < (List.replicate s (0 : Nat)).length := by
      simpa using hs
    simp only [DownloadChunksWithLimit, if_pos hlen]
    have hmax : max st.clockNs
        (expectedDurationNs (st.totalBytes + (List.replicate s (0 : Nat)).length) C) =
        expectedDurationNs (st.totalBytes + (List.replicate s (0 : Nat)).length) C := by
      rw [hclock]
      exact max_eq_right (expectedDurationNs_mono C (Nat.le_add_right _ _))
    have h2 := ih (j + 1)
      { out := st.out ++ List.replicate s 0
        downloaded := st.downloaded + ((List.replicate s (0 : Nat)).length : Int)
        totalBytes := st.totalBytes + (List.replicate s (0 : Nat)).length
        clockNs := max st.clockNs
          (expectedDurationNs (st.totalBytes + (List.replicate s (0 : Nat)).length) C) }
      (by simpa using hmax)
    simp only at h2
    refine ⟨?_, ?_⟩
    · rw [h2.1]
      simp [List.length_replicate, Nat.succ_mul]
      ring
    · rw [h2.2]
      have : st.totalBytes + s + m * s = st.totalBytes + (m + 1) * s := by ring
      simp [List.length_replicate, this]

/-- C9 (bug witness): with a cap of 1,000,000 B/s and a source that
delivers 61 full 32,768-byte chunks instantly, the loop finishes having
moved 1,998,848 bytes with the clock at exactly 1 second — because
`time.Duration(float64(totalBytes)/float64(maxSpeedBytes)) * time.Second`
truncates the quotient to whole seconds before scaling.  The average
throughput, 1,998,848 B/s, exceeds the cap by far more than one chunk's
worth (cap + one 32,768-byte chunk per second would allow at most
1,032,768 B/s), refuting the claimed bound. -/
theorem DownloadChunksWithLimit_cap_violated :
    ((DownloadChunksWithLimit (fun _ => none) 1000000
        (List.replicate 61 ({ data := List.replicate 32768 0, rerr := none } : ReadEv)) 0
        { out := [], downloaded := 0, totalBytes := 0, clockNs := 0 }).2.totalBytes
      = 1998848) ∧
    ((DownloadChunksWithLimit (fun _ => none) 1000000
        (List.replicate 61 ({ data := List.replicate 32768 0, rerr := none } : ReadEv)) 0
        { out := [], downloaded := 0, totalBytes := 0, clockNs := 0 }).2.clockNs
      = 1000000000) ∧
    ((DownloadChunksWithLimit (fun _ => none) 1000000
        (List.replicate 61 ({ data := List.replicate 32768 0, rerr := none } : ReadEv)) 0
        { out := [], downloaded := 0, totalBytes := 0, clockNs := 0 }).2.totalBytes
        * 1000000000 >
      (1000000 + 32768) *
        (DownloadChunksWithLimit (fun _ => none) 1000000
          (List.replicate 61 ({ data := List.replicate 32768 0, rerr := none } : ReadEv)) 0
          { out := [], downloaded := 0, totalBytes := 0, clockNs := 0 }).2.clockNs) := by
  have h := DownloadChunksWithLimit_replicate 1000000 32768 (by norm_num) 61 0
    { out := [], downloaded := 0, totalBytes := 0, clockNs := 0 }
    (by simp [expectedDurationNs])
  simp only at h
  have h1 : (61 : Nat) * 32768 = 1998848 := by norm_num
  have h2 : expectedDurationNs 1998848 1000000 = 1000000000 := by
    unfold expectedDurationNs
    norm_num
  refine ⟨?_, ?_, ?_⟩
  · rw [h.1]
  · rw [h.2]
    simpa [h1] using h2
  · rw [h.1, h.2]
    simp only [Nat.zero_add, h1]
    rw [h2]
    norm_num

lemma CreateRequest_true_snd (content : Option String) :
    (CreateRequest true content { downloaded := 0, resumedAt := 0 }).2 =
      { downloaded := readProgressValue content
        resumedAt := readProgressValue content } := by
  simp only [CreateRequest, if_true, ReadProgress_fresh]
  split <;> rfl

/-- C5: `Download` deletes the progress sidecar exactly when the streaming
engine returns with no error; every other termination (transport error, bad
status, rejected resume, Content-Length parse error, file open/seek error,
or a streaming error) leaves it in place. -/
theorem Download_sidecar_removed_iff_success :
    ∀ inp : DlInput,
      (Download inp).1 = Except.ok () ↔ Eff.removeSidecar ∈ (Download inp).2 := by
  intro inp
  unfold Download
  repeat' (split <;> try simp_all)

/-- C1 (bug witness): `Download` creates `stopChan` but never closes it or
sends on it, so no exit path of `Download` ever signals the reporter to
stop — while the success path does close the progress file handle
(`closeProgress`), leaving the reporter goroutine free to write to the
closed handle on its next tick.  The claimed stop-before-close ordering
never happens. -/
theorem Download_never_signals_reporter_stop :
    (∀ inp : DlInput, List.count Eff.signalStop (Download inp).2 = 0) ∧
    Eff.closeProgress ∈ (Download inpSuccess).2 := by
  constructor
  · intro inp
    unfold Download
    repeat' (split <;> try simp_all)
  · decide

/-- C3: any response status outside {200, 206} is a fatal `badStatus`
error; and when a resume was requested (positive baseline read from the
sidecar) but the server replies 200, `Download` returns the distinct
`resumeRejected` error, never starts the reporter, never removes the
sidecar, and leaves the sidecar content exactly as it was. -/
theorem Download_status_validation :
    (∀ inp : DlInput, inp.urlOk = true → inp.transportErr = false →
      inp.resp.status ≠ 200 → inp.resp.status ≠ 206 →
      (Download inp).1 = Except.error (DlError.badStatus inp.resp.status)) ∧
    (∀ inp : DlInput, inp.urlOk = true → inp.transportErr = false →
      inp.useProgressFile = true →
      0 < readProgressValue inp.progressContent →
      inp.resp.status = 200 →
      (Download inp).1 = Except.error DlError.resumeRejected ∧
      Eff.startReporter ∉ (Download inp).2 ∧
      Eff.removeSidecar ∉ (Download inp).2 ∧
      sidecarAfter inp.progressContent (Download inp).2 = inp.progressContent) := by
  constructor
  · intro inp hurl htr h200 h206
    unfold Download
    simp [hurl, htr, h200, h206]
  · intro inp hurl htr hu hbase h200
    have hdl : (CreateRequest inp.useProgressFile inp.progressContent
        { downloaded := 0, resumedAt := 0 }).2.downloaded =
        readProgressValue inp.progressContent := by
      rw [hu, CreateRequest_true_snd]
    have hres : Download inp = (Except.error DlError.resumeRejected, [Eff.closeBody]) := by
      unfold Download
      simp [hurl, htr, h200, hdl, hbase]
    refine ⟨by rw [hres], by rw [hres]; simp, by rw [hres]; simp, by rw [hres]; simp [sidecarAfter]⟩

/-- Witness for C3: a 404 on a fresh download, and a resume from offset 5
answered with a 200. -/
theorem Download_status_validation_witness :
    (Download inpBadStatus).1 = Except.error (DlError.badStatus 404) ∧
    ((Download inpResumeRej).1 = Except.error DlError.resumeRejected ∧
      Eff.startReporter ∉ (Download inpResumeRej).2 ∧
      Eff.removeSidecar ∉ (Download inpResumeRej).2 ∧
      sidecarAfter inpResumeRej.progressContent (Download inpResumeRej).2 =
        inpResumeRej.progressContent) :=
  ⟨Download_status_validation.1 inpBadStatus rfl rfl (by decide) (by decide),
   Download_status_validation.2 inpResumeRej rfl rfl rfl (by decide) rfl⟩

lemma CInv_sidecar_le (tr : List CEv) :
    ∀ (p : Option Nat) (s : CSys), writerWF p tr = true → CInv p s →
      (List.foldl cstep s tr).sidecar ≤ (List.foldl cstep s tr).outWritten := by
  induction tr with
  | nil => intro p s _ hinv; exact hinv.1
  | cons e tr ih =>
    intro p s hwf hinv
    obtain ⟨h1, h2, h3⟩ := hinv
    cases e with
    | wWrite n =>
      cases p with
      | none =>
        simp only [writerWF] at hwf
        refine ih (some n) _ hwf ?_
        simp only [CInv, cstep] at h3 ⊢
        refine ⟨by omega, by omega, by omega⟩
      | some m => simp [writerWF] at hwf
    | wAdd n =>
      cases p with
      | none => simp [writerWF] at hwf
      | some m =>
        simp only [writerWF, Bool.and_eq_true, beq_iff_eq] at hwf
        obtain ⟨hnm, hwf⟩ := hwf
        refine ih none _ hwf ?_
        simp only [CInv, cstep] at h3 ⊢
        subst hnm
        refine ⟨by omega, by omega, by omega⟩
    | rSample =>
      simp only [writerWF] at hwf
      refine ih p _ hwf ?_
      simp only [CInv, cstep] at h3 ⊢
      cases p with
      | none => refine ⟨by omega, by omega, by omega⟩
      | some m => refine ⟨by omega, by omega, by omega⟩
    | rPersist =>
      simp only [writerWF] at hwf
      refine ih p _ hwf ?_
      simp only [CInv, cstep] at h3 ⊢
      cases p with
      | none => refine ⟨by omega, by omega, by omega⟩
      | some m => refine ⟨by omega, by omega, by omega⟩

/-- C2: over every interleaving of the streaming writer (write syscall,
then atomic add) with the reporter (atomic sample, then persist), starting
from a resume offset `n`, the value persisted in the sidecar never exceeds
the bytes actually written to the output file — because `Downloaded` is
incremented only after the corresponding write has succeeded, and the
reporter persists a sampled past value of `Downloaded`. -/
theorem sidecar_never_overstates_output :
    ∀ (tr : List CEv) (n : Int), 0 ≤ n → writerWF none tr = true →
      (List.foldl cstep (initSys n) tr).sidecar ≤
        (List.foldl cstep (initSys n) tr).outWritten := by
  intro tr n hn hwf
  exact CInv_sidecar_le tr none (initSys n) hwf
    ⟨le_refl _, hn, le_refl _⟩

/-- Witness for C2: a fresh transfer, one 5-byte chunk fully processed,
then a reporter tick. -/
theorem sidecar_never_overstates_output_witness :
    (List.foldl cstep (initSys 0)
        [CEv.wWrite 5, CEv.wAdd 5, CEv.rSample, CEv.rPersist]).sidecar ≤
      (List.foldl cstep (initSys 0)
        [CEv.wWrite 5, CEv.wAdd 5, CEv.rSample, CEv.rPersist]).outWritten :=
  sidecar_never_overstates_output
    [CEv.wWrite 5, CEv.wAdd 5, CEv.rSample, CEv.rPersist] 0
    (by decide) (by decide)

end Medow
